import Mathlib

set_option maxHeartbeats 1000000
set_option maxRecDepth 8000

/-!
Shallow embedding of `src/mcp-server/src/connectx7_mcp/server.py`.

The HTTP client, BeautifulSoup parsing and markdownify conversion are external
collaborators; they are modelled by a `World` oracle mapping a URL either to a
transport failure (connection error, timeout, non-2xx after `raise_for_status`)
or to a retrieved page, carrying the declared title (if any) and the
markdownified primary content region (if any survives the fallback chain
main / article / .content / #content / body).  The on-disk cache directory is a
map from file key to a raw record; a raw record models the parse status of the
JSON file: whether it is well-formed JSON, and which of the four fields
url / title / content / ts are present (ts already decoded from ISO format,
`none` when missing or unparseable).  Timestamps are integers (seconds);
`datetime.now() - fromisoformat(ts) < timedelta(hours=24)` becomes
`now - t < ttlSecs`.  Python string operations used by the source are
re-implemented character-wise with identical semantics: `str.lower`,
single-character `str.replace`, `str.split`, `in` (substring test), slicing
`m[:500]` and `len`.
-/

namespace CX7

/-- Python `s.lower()` (source strings are ASCII). -/
def pyLower (s : String) : String := ⟨s.data.map Char.toLower⟩

/-- Python `s.replace(a, b)` for single-character `a`, `b`: a character map. -/
def pyReplaceChar (a b : Char) (s : String) : String :=
  ⟨s.data.map (fun c => if c = a then b else c)⟩

/-- Line 140: `topic.lower().replace("-", "_").replace(" ", "_")`. -/
def normalizeTopic (t : String) : String :=
  pyReplaceChar ' ' '_' (pyReplaceChar '-' '_' (pyLower t))

/-- Python `s.split(sep)` for a single-character separator (keeps empties). -/
def splitOnChar (sep : Char) : List Char → List (List Char)
  | [] => [[]]
  | c :: rest =>
    let r := splitOnChar sep rest
    if c = sep then [] :: r
    else
      match r with
      | [] => [[c]]
      | h :: t => (c :: h) :: t

/-- Line 117 fallback title: `url.split("/")[-1]`. -/
def lastSegment (url : String) : String :=
  ⟨(splitOnChar '/' url.data).getLastD []⟩

/-- Python `p in s` on character lists (empty pattern always matches). -/
def hasSub (p : List Char) : List Char → Bool
  | [] => p.isEmpty
  | c :: rest => p.isPrefixOf (c :: rest) || hasSub p rest

/-- Lines 172/185/186: `query.lower() in s.lower()`. -/
def containsSub (q s : String) : Bool :=
  hasSub (pyLower q).data (pyLower s).data

/-- Python `s.split("\n\n")`: split on non-overlapping occurrences, leftmost first. -/
def splitParas : List Char → List (List Char)
  | [] => [[]]
  | '\n' :: '\n' :: rest => [] :: splitParas rest
  | c :: rest =>
    match splitParas rest with
    | [] => [[c]]
    | h :: t => (c :: h) :: t

/-- Line 186: the paragraphs of a markdown content string. -/
def splitParasStr (s : String) : List String :=
  (splitParas s.data).map (fun l => ⟨l⟩)

/-- Scanner for `re.sub(r'\x7bn\x7d\x7b3,\x7d', ...)`-style collapsing: within each maximal
run of newlines, the first two are kept and the rest are dropped, which is
exactly what replacing every maximal run of 3-or-more newlines by two newlines
does.  The counter records how many consecutive newlines were just emitted. -/
def collapseAux : Nat → List Char → List Char
  | _, [] => []
  | k, c :: cs =>
    if c = '\n' then
      if 2 ≤ k then collapseAux k cs
      else c :: collapseAux (k + 1) cs
    else c :: collapseAux 0 cs

/-- Line 119: `re.sub` replacing every run of 3-or-more newline characters
with exactly two newline characters. -/
def collapseBlank (s : String) : String := ⟨collapseAux 0 s.data⟩

/-- Line 203: `m[:500] + "..." if len(m) > 500 else m`. -/
def truncPara (m : String) : String :=
  if 500 < m.data.length then ⟨m.data.take 500⟩ ++ "..." else m

/-- The parse outcome of one on-disk cache file (`<hash>.json`), on the region
where the program's `cache_valid` returns rather than raises: `wellFormedJson`
is whether `json.loads` succeeds, and each field is `some` when present (for
`ts`: present as a plain ISO string of value `t`; `none` when missing — caught
`KeyError` — or rejected with a caught `ValueError`).  The file states on
which `cache_valid` instead raises an uncaught `TypeError` (valid JSON that is
not an object; a non-string or offset-aware `ts` value) are modelled exactly
by `DiskFile` below, and `cache_valid_py_agree` proves this coarse model
agrees with the exact one on every non-raising outcome. -/
structure RawRecord where
  wellFormedJson : Bool
  url : Option String
  title : Option String
  content : Option String
  ts : Option Int
  deriving DecidableEq, Repr

/-- The record written on a successful fetch (line 121):
`{"url", "title", "content", "ts"}`, all four fields present. -/
structure CacheRecord where
  url : String
  title : String
  content : String
  ts : Int
  deriving DecidableEq, Repr

/-- Line 122: `json.dumps` of a full record is well-formed JSON with all fields. -/
def CacheRecord.toRaw (r : CacheRecord) : RawRecord :=
  ⟨true, some r.url, some r.title, some r.content, some r.ts⟩

/-- The cache directory: file key (hash-derived name) to raw file, if present. -/
abbrev Store := String → Option RawRecord

/-- The retrieval + extraction collaborators for one URL:
either a transport failure, or a page with its declared title (if any) and its
markdownified main-content region (`none` when the fallback chain finds nothing). -/
inductive Retrieval where
  | failure (msg : String)
  | page (title : Option String) (main : Option String)
  deriving DecidableEq

abbrev World := String → Retrieval

/-- Line 25: `CACHE_HOURS = 24`. -/
def CACHE_HOURS : Int := 24

/-- The 24-hour TTL in seconds. -/
def ttlSecs : Int := CACHE_HOURS * 3600

/-- Lines 88-92 applied to an already-read file, on the non-raising region
(see `RawRecord`): well-formed JSON whose `ts` field is present, parseable and
younger than the TTL; any other represented outcome is one of the caught
exceptions (JSONDecodeError / KeyError / ValueError / OSError). -/
def cacheValidRaw (now : Int) (raw : RawRecord) : Bool :=
  raw.wellFormedJson &&
    match raw.ts with
    | some t => decide (now - t < ttlSecs)
    | none => false

/-- Lines 85-92: `cache_valid(path)` on the non-raising region; a missing file
is invalid (lines 86-87). -/
def cache_valid (now : Int) (store : Store) (key : String) : Bool :=
  match store key with
  | some raw => cacheValidRaw now raw
  | none => false

/-- The value found under the `"ts"` key of an on-disk JSON object, by how
line 90 treats it: a non-string raises `TypeError` from
`datetime.fromisoformat` (not in the `except` tuple of line 91, so uncaught);
a string that is not ISO-parseable raises a caught `ValueError`; an ISO string
carrying a UTC offset parses but then raises an uncaught `TypeError` when
subtracted from the naive `datetime.now()`; a plain ISO string yields the
timestamp `t`. -/
inductive TsField where
  | nonString
  | badIso
  | awareIso
  | iso (t : Int)
  deriving DecidableEq, Repr

/-- The exact parse shape of one on-disk cache file, including the states on
which `cache_valid` raises: unreadable bytes (caught `OSError`), bytes that
fail `json.loads` (caught `JSONDecodeError`), valid JSON that is not an object
(`data["ts"]` raises an uncaught `TypeError`), or a JSON object with its three
string fields (recorded when present) and its `ts` field. -/
inductive DiskFile where
  | unreadable
  | notJson
  | nonObject
  | object (url title content : Option String) (ts : Option TsField)
  deriving DecidableEq, Repr

/-- The exact cache directory: file key to on-disk file shape, if present. -/
abbrev PyStore := String → Option DiskFile

/-- Lines 88-92 on one read file, exactly: `some b` when the Python code
returns `b`, `none` when it raises an uncaught `TypeError`. -/
def cacheValidFile (now : Int) (f : DiskFile) : Option Bool :=
  match f with
  | DiskFile.unreadable => some false
  | DiskFile.notJson => some false
  | DiskFile.nonObject => none
  | DiskFile.object _ _ _ ts =>
    match ts with
    | none => some false
    | some TsField.nonString => none
    | some TsField.badIso => some false
    | some TsField.awareIso => none
    | some (TsField.iso t) => some (decide (now - t < ttlSecs))

/-- Lines 85-92, exactly: `cache_valid(path)` returning `some b`, or `none`
for the uncaught `TypeError` escaping to the caller. -/
def cache_valid_py (now : Int) (store : PyStore) (key : String) : Option Bool :=
  match store key with
  | none => some false
  | some f => cacheValidFile now f

/-- How the coarse `RawRecord` abstraction reads one exact file shape: the
raising states carry no usable `ts`. -/
def DiskFile.toRaw : DiskFile → RawRecord
  | DiskFile.unreadable => ⟨false, none, none, none, none⟩
  | DiskFile.notJson => ⟨false, none, none, none, none⟩
  | DiskFile.nonObject => ⟨true, none, none, none, none⟩
  | DiskFile.object u ti co ts =>
    ⟨true, u, ti, co,
     match ts with
     | some (TsField.iso t) => some t
     | _ => none⟩

/-- The dictionary `fetch` returns: an `\x7b"error": ...\x7d` dict, a cache hit
(the parsed on-disk dict, tagged `cached=True`), or a freshly fetched record
(tagged `cached=False`). -/
inductive FetchResult where
  | error (msg : String)
  | cached (raw : RawRecord)
  | fresh (rec : CacheRecord)
  deriving DecidableEq, Repr

/-- Lines 117-121: title fallback, blank-line collapsing, timestamping. -/
def mkRecord (url : String) (title : Option String) (mainMd : String) (now : Int) :
    CacheRecord :=
  ⟨url, title.getD (lastSegment url), collapseBlank mainMd, now⟩

/-- Lines 95-124: `fetch(url, refresh)`.  Besides the result and the updated
store, the third component logs the URLs actually retrieved over the network
(empty on a cache hit), so that "no retrieval happened" is observable.
The inner `none` arm of the cache-hit branch is unreachable: `cache_valid`
is true only when the file exists (it models the re-read on line 98). -/
def fetch (keyFor : String → String) (w : World) (now : Int) (store : Store)
    (url : String) (refresh : Bool) : FetchResult × Store × List String :=
  if !refresh && cache_valid now store (keyFor url) then
    match store (keyFor url) with
    | some raw => (FetchResult.cached raw, store, [])
    | none => (FetchResult.error "cache read failed", store, [])
  else
    match w url with
    | Retrieval.failure e => (FetchResult.error e, store, [url])
    | Retrieval.page t main =>
      match main with
      | none => (FetchResult.error "No content found", store, [url])
      | some m =>
        let d := mkRecord url t m now
        (FetchResult.fresh d,
         fun k => if k = keyFor url then some d.toRaw else store k,
         [url])

/-- One entry of `DOC_SOURCES` (lines 28-78). -/
structure DocSource where
  base : String
  name : String
  pages : List String
  deriving DecidableEq, Repr

/-- Lines 28-78: the source registry, in insertion order. -/
def DOC_SOURCES : List (String × DocSource) :=
  [("connectx7",
    ⟨"https://docs.nvidia.com/networking/display/ConnectX7VPI",
     "ConnectX-7 User Manual",
     ["", "/Introduction", "/Hardware+Installation", "/Driver+Installation",
      "/Firmware+Update", "/Port+Configuration", "/Troubleshooting",
      "/Specifications", "/Performance+Tuning"]⟩),
   ("doca",
    ⟨"https://docs.nvidia.com/doca/sdk",
     "DOCA SDK",
     ["", "/doca-overview/index.html",
      "/doca-installation-guide-for-linux/index.html",
      "/rdma-over-converged-ethernet/index.html"]⟩),
   ("vma",
    ⟨"https://docs.nvidia.com/networking/display/VMAv98",
     "VMA User Manual",
     ["", "/Introduction", "/Installation", "/Configuration",
      "/API", "/Performance+Tuning", "/Troubleshooting"]⟩),
   ("rdma",
    ⟨"https://docs.nvidia.com/networking/display/RDMAAwareProgrammingv17",
     "RDMA Programming Guide",
     ["", "/RDMA-Aware+Programming+Overview",
      "/RDMA+Verbs+API", "/Programming+Examples+Using+IBV+Verbs"]⟩),
   ("mlnx_ofed",
    ⟨"https://docs.nvidia.com/networking/display/MLNXOFEDv24100700",
     "MLNX_OFED Documentation",
     ["", "/Introduction", "/Installation", "/Performance+Tuning"]⟩),
   ("mlx5_kernel",
    ⟨"https://www.kernel.org/doc/html/latest/networking/device_drivers/ethernet/mellanox/mlx5",
     "mlx5 Kernel Driver",
     ["/index.html", "/kconfig.html", "/tracepoints.html", "/counters.html"]⟩),
   ("dpdk_mlx5",
    ⟨"https://doc.dpdk.org/guides/platform",
     "DPDK mlx5 Driver",
     ["/mlx5.html"]⟩)]

/-- Python `DOC_SOURCES[topic]` guarded by `topic in DOC_SOURCES` (exact key). -/
def lookupSrc (t : String) : Option DocSource :=
  (DOC_SOURCES.find? (fun p => p.1 == t)).map Prod.snd

/-- Python `topic in DOC_SOURCES`. -/
def isRegistered (t : String) : Bool := (lookupSrc t).isSome

/-- `list(DOC_SOURCES.keys())`, in insertion order. -/
def registryKeys : List String := DOC_SOURCES.map Prod.fst

/-- Line 142: `", ".join(DOC_SOURCES.keys())`. -/
def availableStr : String := String.intercalate ", " registryKeys

/-- Lines 127-153: `fetch_nvidia_docs(topic, page, refresh)`.  The first
component is `none` exactly when the Python code would raise an uncaught
`KeyError` (a cache hit whose dict lacks `title` or `content`); otherwise it is
the returned string.  The remaining components are the store after the call and
the retrieval log. -/
def fetch_nvidia_docs (keyFor : String → String) (w : World) (now : Int)
    (store : Store) (topic page : String) (refresh : Bool) :
    Option String × Store × List String :=
  match lookupSrc (normalizeTopic topic) with
  | none =>
    (some ("Unknown topic \x27" ++ normalizeTopic topic ++ "\x27. Available: "
        ++ availableStr), store, [])
  | some src =>
    let url := src.base ++ page
    let out := fetch keyFor w now store url refresh
    match out.1 with
    | FetchResult.error e =>
      (some ("Error fetching " ++ url ++ ": " ++ e), out.2.1, out.2.2)
    | FetchResult.cached raw =>
      match raw.title, raw.content with
      | some ti, some co =>
        (some ("# " ++ ti ++ "\n\nSource: " ++ url ++ " (cached)\n\n" ++ co),
         out.2.1, out.2.2)
      | _, _ => (none, out.2.1, out.2.2)
    | FetchResult.fresh d =>
      (some ("# " ++ d.title ++ "\n\nSource: " ++ url ++ " (fresh)\n\n"
          ++ d.content), out.2.1, out.2.2)

/-- One appended element of `results` (lines 188-193). -/
structure SearchHit where
  src : String
  title : String
  url : String
  matchParas : List String
  deriving DecidableEq, Repr

/-- Line 186: `[p for p in content.split("\n\n") if query_lower in p.lower()]`. -/
def paraMatches (q content : String) : List String :=
  (splitParasStr content).filter (fun p => containsSub q p)

/-- Lines 185-193: append a hit for one successfully fetched document.
`titleOpt` is `data.get("title", ...)`, defaulting to the page path. -/
def processDoc (q srcName pagePath url : String) (hits : List SearchHit)
    (titleOpt : Option String) (content : String) : List SearchHit :=
  if containsSub q content then
    let paras := paraMatches q content
    if paras.isEmpty then hits
    else hits ++ [⟨srcName, titleOpt.getD pagePath, url, paras.take 2⟩]
  else hits

/-- Lines 180-193: the body of the inner page loop for one
(source name, page path, url) item, threading (hits, store). -/
def sweepStep (keyFor : String → String) (w : World) (now : Int) (q : String)
    (st : List SearchHit × Store) (item : String × String × String) :
    List SearchHit × Store :=
  let out := fetch keyFor w now st.2 item.2.2 false
  match out.1 with
  | FetchResult.error _ => (st.1, out.2.1)
  | FetchResult.cached raw =>
    (processDoc q item.1 item.2.1 item.2.2 st.1 raw.title (raw.content.getD ""),
     out.2.1)
  | FetchResult.fresh d =>
    (processDoc q item.1 item.2.1 item.2.2 st.1 (some d.title) d.content,
     out.2.1)

/-- Lines 175-193: topics outer loop (unknown topics skipped by exact key
lookup, line 176), pages inner loop in registry order, threading the
(results, cache) state. -/
def searchSweepAux (keyFor : String → String) (w : World) (now : Int)
    (q : String) (st : List SearchHit × Store) :
    List String → List SearchHit × Store
  | [] => st
  | t :: ts =>
    searchSweepAux keyFor w now q
      (match lookupSrc t with
       | none => st
       | some src =>
         src.pages.foldl
           (fun acc2 p => sweepStep keyFor w now q acc2 (src.name, p, src.base ++ p))
           st)
      ts

/-- Lines 169-193: the whole sweep starting from an empty result list. -/
def searchSweep (keyFor : String → String) (w : World) (now : Int) (q : String)
    (topics : List String) (store : Store) : List SearchHit × Store :=
  searchSweepAux keyFor w now q ([], store) topics

/-- The flattened iteration order of the sweep: topics outer, pages inner. -/
def sweepItems : List String → List (String × String × String)
  | [] => []
  | t :: ts =>
    (match lookupSrc t with
     | none => []
     | some src => src.pages.map (fun p => (src.name, p, src.base ++ p)))
      ++ sweepItems ts

/-- Lines 200-204: the rendered block for one retained result. -/
def renderHit (h : SearchHit) : List String :=
  ("## " ++ h.src ++ " - " ++ h.title)
    :: ("URL: " ++ h.url ++ "\n")
    :: h.matchParas.map (fun m => "> " ++ truncPara m ++ "\n")

/-- Lines 195-206: the final string; only `results[:10]` is rendered. -/
def renderSearch (q : String) (hits : List SearchHit) : String :=
  if hits.isEmpty then "No results found for \x27" ++ q ++ "\x27"
  else
    String.intercalate "\n"
      (("# Search Results: \x27" ++ q ++ "\x27\n")
        :: (hits.take 10).foldr (fun h acc => renderHit h ++ acc) [])

/-- Lines 156-206: `search_nvidia_docs(query, topics)`;
`topics=None` defaults to every registered topic (lines 169-170). -/
def search_nvidia_docs (keyFor : String → String) (w : World) (now : Int)
    (store : Store) (q : String) (topics : Option (List String)) :
    String × Store :=
  let ts := topics.getD registryKeys
  let out := searchSweep keyFor w now q ts store
  (renderSearch q out.1, out.2)

/-! ### Lemmas about the blank-line collapsing scanner -/

lemma collapseAux_cons (k : Nat) (c : Char) (cs : List Char) :
    collapseAux k (c :: cs) =
      if c = '\n' then
        if 2 ≤ k then collapseAux k cs else c :: collapseAux (k + 1) cs
      else c :: collapseAux 0 cs := rfl

lemma collapseAux_append_no_nl (a s : List Char) (ha : '\n' ∉ a) :
    collapseAux 0 (a ++ s) = a ++ collapseAux 0 s := by
  induction a with
  | nil => rfl
  | cons c as ih =>
    simp only [List.mem_cons, not_or] at ha
    have hc : ¬ c = '\n' := fun h => ha.1 h.symm
    simp only [List.cons_append, collapseAux_cons, if_neg hc]
    exact congrArg (c :: ·) (ih ha.2)

lemma collapseAux_head_irrel (b : List Char) (hb : b.head? ≠ some '\n')
    (k k' : Nat) : collapseAux k b = collapseAux k' b := by
  cases b with
  | nil => rfl
  | cons c cs =>
    have hc : ¬ c = '\n' := by
      intro h
      exact hb (by rw [h]; rfl)
    simp [collapseAux_cons, if_neg hc]

lemma collapseAux_drop (m : Nat) (b : List Char) (k : Nat) (hk : 2 ≤ k) :
    collapseAux k (List.replicate m '\n' ++ b) = collapseAux k b := by
  induction m with
  | zero => rfl
  | succ n ih =>
    simp only [List.replicate_succ, List.cons_append, collapseAux_cons,
      if_pos rfl, if_pos hk]
    exact ih

lemma collapseAux_run (n : Nat) (b : List Char) (hb : b.head? ≠ some '\n') :
    collapseAux 0 (List.replicate n '\n' ++ b)
      = List.replicate (min n 2) '\n' ++ collapseAux 0 b := by
  match n with
  | 0 => simp
  | 1 =>
    have hmin : min 1 2 = 1 := by decide
    rw [hmin]
    show collapseAux 0 ('\n' :: b) = '\n' :: collapseAux 0 b
    rw [collapseAux_cons, if_pos rfl, if_neg (show ¬ 2 ≤ 0 by omega),
      collapseAux_head_irrel b hb (0 + 1) 0]
  | (n + 2) =>
    have hmin : min (n + 2) 2 = 2 := by omega
    rw [hmin]
    have e1 : List.replicate (n + 2) '\n' ++ b
        = '\n' :: '\n' :: (List.replicate n '\n' ++ b) := by
      simp [List.replicate_succ]
    rw [e1, collapseAux_cons, if_pos rfl, if_neg (show ¬ 2 ≤ 0 by omega),
      collapseAux_cons, if_pos rfl, if_neg (show ¬ 2 ≤ 0 + 1 by omega),
      collapseAux_drop n b (0 + 1 + 1) (by omega),
      collapseAux_head_irrel b hb (0 + 1 + 1) 0]
    rfl

lemma collapseAux_idem (s : List Char) :
    ∀ k, collapseAux k (collapseAux k s) = collapseAux k s := by
  induction s with
  | nil => intro k; rfl
  | cons c cs ih =>
    intro k
    by_cases hc : c = '\n'
    · subst hc
      by_cases hk : 2 ≤ k
      · rw [collapseAux_cons, if_pos rfl, if_pos hk]
        exact ih k
      · rw [collapseAux_cons, if_pos rfl, if_neg hk,
          collapseAux_cons, if_pos rfl, if_neg hk]
        exact congrArg ('\n' :: ·) (ih (k + 1))
    · rw [collapseAux_cons, if_neg hc, collapseAux_cons, if_neg hc]
      exact congrArg (c :: ·) (ih 0)

lemma collapseAux_filter (s : List Char) :
    ∀ k, (collapseAux k s).filter (fun c => !(c == '\n'))
      = s.filter (fun c => !(c == '\n')) := by
  induction s with
  | nil => intro k; rfl
  | cons c cs ih =>
    intro k
    by_cases hc : c = '\n'
    · subst hc
      by_cases hk : 2 ≤ k
      · rw [collapseAux_cons, if_pos rfl, if_pos hk, ih k]
        simp
      · rw [collapseAux_cons, if_pos rfl, if_neg hk]
        simp only [List.filter_cons]
        rw [ih (k + 1)]
    · rw [collapseAux_cons, if_neg hc]
      simp only [List.filter_cons]
      rw [ih 0]

/-- C2 (amended): the blank-line collapsing applied to every fetched markdown
string replaces each maximal run of 2-or-more consecutive blank lines (i.e.
3-or-more consecutive newline characters) with exactly one blank line (two
newline characters), leaves shorter runs and all non-newline characters
unchanged and in order, is idempotent, and is exactly the transformation the
fetch pipeline applies to the content it stores. -/
theorem C2_blank_collapse (a b : List Char) (n : Nat)
    (ha : '\n' ∉ a) (hb : b.head? ≠ some '\n') :
    collapseAux 0 (a ++ List.replicate n '\n' ++ b)
        = a ++ List.replicate (min n 2) '\n' ++ collapseAux 0 b
      ∧ (∀ s : String, collapseBlank (collapseBlank s) = collapseBlank s)
      ∧ (∀ s : String, (collapseBlank s).data.filter (fun c => !(c == '\n'))
          = s.data.filter (fun c => !(c == '\n')))
      ∧ (∀ url t m now, (mkRecord url t m now).content = collapseBlank m) := by
  refine ⟨?_, ?_, ?_, fun _ _ _ _ => rfl⟩
  · rw [List.append_assoc, collapseAux_append_no_nl _ _ ha,
      collapseAux_run n b hb, List.append_assoc]
  · intro s
    show String.mk (collapseAux 0 (collapseAux 0 s.data))
        = String.mk (collapseAux 0 s.data)
    exact congrArg String.mk (collapseAux_idem s.data 0)
  · intro s
    exact collapseAux_filter s.data 0

/-- C2 witness: the amended statement evaluated at a concrete run of five
newlines (four blank lines) between two non-blank characters. -/
theorem C2_blank_collapse_witness :
    ('\n' ∉ ['a']) ∧ (['b'].head? ≠ some '\n')
      ∧ (collapseAux 0 (['a'] ++ List.replicate 5 '\n' ++ ['b'])
            = ['a'] ++ List.replicate (min 5 2) '\n' ++ collapseAux 0 ['b']
          ∧ (∀ s : String, collapseBlank (collapseBlank s) = collapseBlank s)
          ∧ (∀ s : String,
              (collapseBlank s).data.filter (fun c => !(c == '\n'))
                = s.data.filter (fun c => !(c == '\n')))
          ∧ (∀ url t m now, (mkRecord url t m now).content = collapseBlank m)) :=
  ⟨by decide, by decide, C2_blank_collapse ['a'] ['b'] 5 (by decide) (by decide)⟩

/-- C2 counterexample to the claim as stated: the input below contains a run of
exactly 2 consecutive blank lines (3 newline characters), so a transformation
that only replaces runs of 3-or-more blank lines and alters nothing else would
leave it unchanged; the code collapses it. -/
theorem C2_counterexample :
    collapseBlank "a\n\n\nb" = "a\n\nb"
      ∧ collapseBlank "a\n\n\nb" ≠ "a\n\n\nb"
      ∧ ("a\n\n\nb").data = 'a' :: (List.replicate 3 '\n' ++ ['b']) := by decide

/-! ### Branch equations for `fetch` -/

lemma cache_valid_of_record (now : Int) (store : Store) (key : String)
    (raw : RawRecord) (h : store key = some raw) :
    cache_valid now store key = cacheValidRaw now raw := by
  unfold cache_valid
  rw [h]

lemma fetch_hit (keyFor : String → String) (w : World) (now : Int)
    (store : Store) (url : String) (refresh : Bool) (raw : RawRecord)
    (h1 : (!refresh && cache_valid now store (keyFor url)) = true)
    (h2 : store (keyFor url) = some raw) :
    fetch keyFor w now store url refresh = (FetchResult.cached raw, store, []) := by
  unfold fetch
  rw [if_pos h1, h2]

lemma fetch_hit_none (keyFor : String → String) (w : World) (now : Int)
    (store : Store) (url : String) (refresh : Bool)
    (h1 : (!refresh && cache_valid now store (keyFor url)) = true)
    (h2 : store (keyFor url) = none) :
    fetch keyFor w now store url refresh
      = (FetchResult.error "cache read failed", store, []) := by
  unfold fetch
  rw [if_pos h1, h2]

lemma fetch_fail (keyFor : String → String) (w : World) (now : Int)
    (store : Store) (url : String) (refresh : Bool) (e : String)
    (h1 : (!refresh && cache_valid now store (keyFor url)) = false)
    (h2 : w url = Retrieval.failure e) :
    fetch keyFor w now store url refresh = (FetchResult.error e, store, [url]) := by
  unfold fetch
  rw [if_neg (by simp [h1]), h2]

lemma fetch_nocontent (keyFor : String → String) (w : World) (now : Int)
    (store : Store) (url : String) (refresh : Bool) (t : Option String)
    (h1 : (!refresh && cache_valid now store (keyFor url)) = false)
    (h2 : w url = Retrieval.page t none) :
    fetch keyFor w now store url refresh
      = (FetchResult.error "No content found", store, [url]) := by
  unfold fetch
  rw [if_neg (by simp [h1]), h2]

lemma fetch_fresh_eq (keyFor : String → String) (w : World) (now : Int)
    (store : Store) (url : String) (refresh : Bool) (t : Option String)
    (m : String)
    (h1 : (!refresh && cache_valid now store (keyFor url)) = false)
    (h2 : w url = Retrieval.page t (some m)) :
    fetch keyFor w now store url refresh
      = (FetchResult.fresh (mkRecord url t m now),
         fun k => if k = keyFor url then some (mkRecord url t m now).toRaw
           else store k,
         [url]) := by
  unfold fetch
  rw [if_neg (by simp [h1]), h2]

/-! ### Claims about the cache store -/

lemma cache_valid_py_agree (now : Int) (store : PyStore) (key : String)
    (b : Bool) (hb : cache_valid_py now store key = some b) :
    b = cache_valid now (fun k => (store k).map DiskFile.toRaw) key := by
  cases hs : store key with
  | none =>
    simp only [cache_valid_py, hs] at hb
    obtain rfl : b = false := by simpa using hb.symm
    simp [cache_valid, hs]
  | some f =>
    cases f with
    | unreadable =>
      simp only [cache_valid_py, cacheValidFile, hs] at hb
      obtain rfl : b = false := by simpa using hb.symm
      simp [cache_valid, cacheValidRaw, DiskFile.toRaw, hs]
    | notJson =>
      simp only [cache_valid_py, cacheValidFile, hs] at hb
      obtain rfl : b = false := by simpa using hb.symm
      simp [cache_valid, cacheValidRaw, DiskFile.toRaw, hs]
    | nonObject =>
      simp only [cache_valid_py, cacheValidFile, hs] at hb
      exact absurd hb (by simp)
    | object u ti co ts =>
      cases ts with
      | none =>
        simp only [cache_valid_py, cacheValidFile, hs] at hb
        obtain rfl : b = false := by simpa using hb.symm
        simp [cache_valid, cacheValidRaw, DiskFile.toRaw, hs]
      | some tf =>
        cases tf with
        | nonString =>
          simp only [cache_valid_py, cacheValidFile, hs] at hb
          exact absurd hb (by simp)
        | badIso =>
          simp only [cache_valid_py, cacheValidFile, hs] at hb
          obtain rfl : b = false := by simpa using hb.symm
          simp [cache_valid, cacheValidRaw, DiskFile.toRaw, hs]
        | awareIso =>
          simp only [cache_valid_py, cacheValidFile, hs] at hb
          exact absurd hb (by simp)
        | iso t =>
          simp only [cache_valid_py, cacheValidFile, hs] at hb
          obtain rfl : b = decide (now - t < ttlSecs) := by simpa using hb.symm
          simp [cache_valid, cacheValidRaw, DiskFile.toRaw, hs]

/-- C1 (amended): on every on-disk state, `cache_valid` reports the key valid
exactly when the file is a JSON object whose `ts` (fetched_at) field is a
plain ISO string younger than 24 hours; it raises an uncaught `TypeError` to
its caller exactly when the file is valid JSON that is not an object, or its
`ts` value is a non-string, or an offset-aware ISO string (`TypeError` is
absent from the `except` tuple of line 91); every other state — file missing
or unreadable, bytes not JSON, `ts` missing or a non-ISO string, or record
expired — returns false, those parse failures being caught and absorbed.  The
`url`, `title` and `content` fields are never inspected, and on every
non-raising outcome the check agrees with the coarse `cache_valid` model used
by the rest of this file. -/
theorem C1_cache_validity_scope (now : Int) (store : PyStore) (key : String) :
    (cache_valid_py now store key = some true ↔
        ∃ u ti co t, store key
            = some (DiskFile.object u ti co (some (TsField.iso t)))
          ∧ now - t < ttlSecs)
      ∧ (cache_valid_py now store key = none ↔
          store key = some DiskFile.nonObject
            ∨ (∃ u ti co, store key
                = some (DiskFile.object u ti co (some TsField.nonString)))
            ∨ (∃ u ti co, store key
                = some (DiskFile.object u ti co (some TsField.awareIso))))
      ∧ (∀ u1 t1 c1 u2 t2 c2 ts,
          cacheValidFile now (DiskFile.object u1 t1 c1 ts)
            = cacheValidFile now (DiskFile.object u2 t2 c2 ts))
      ∧ (∀ b, cache_valid_py now store key = some b →
          b = cache_valid now (fun k => (store k).map DiskFile.toRaw) key) := by
  refine ⟨?_, ?_, fun u1 t1 c1 u2 t2 c2 ts => rfl,
    fun b hb => cache_valid_py_agree now store key b hb⟩
  · cases hs : store key with
    | none => simp [cache_valid_py, hs]
    | some f =>
      cases f with
      | unreadable => simp [cache_valid_py, cacheValidFile, hs]
      | notJson => simp [cache_valid_py, cacheValidFile, hs]
      | nonObject => simp [cache_valid_py, cacheValidFile, hs]
      | object u ti co ts =>
        cases ts with
        | none => simp [cache_valid_py, cacheValidFile, hs]
        | some tf =>
          cases tf with
          | nonString => simp [cache_valid_py, cacheValidFile, hs]
          | badIso => simp [cache_valid_py, cacheValidFile, hs]
          | awareIso => simp [cache_valid_py, cacheValidFile, hs]
          | iso t =>
            simp only [cache_valid_py, cacheValidFile, hs, Option.some.injEq,
              decide_eq_true_eq, DiskFile.object.injEq, TsField.iso.injEq]
            constructor
            · intro h
              exact ⟨u, ti, co, t, ⟨rfl, rfl, rfl, rfl⟩, h⟩
            · rintro ⟨u1, ti1, co1, t1, ⟨h1, h2, h3, rfl⟩, h⟩
              exact h
  · cases hs : store key with
    | none => simp [cache_valid_py, hs]
    | some f =>
      cases f with
      | unreadable => simp [cache_valid_py, cacheValidFile, hs]
      | notJson => simp [cache_valid_py, cacheValidFile, hs]
      | nonObject => simp [cache_valid_py, cacheValidFile, hs]
      | object u ti co ts =>
        cases ts with
        | none => simp [cache_valid_py, cacheValidFile, hs]
        | some tf =>
          cases tf with
          | nonString => simp [cache_valid_py, cacheValidFile, hs]
          | badIso => simp [cache_valid_py, cacheValidFile, hs]
          | awareIso => simp [cache_valid_py, cacheValidFile, hs]
          | iso t => simp [cache_valid_py, cacheValidFile, hs]

/-- C1 witness: the amended characterization evaluated at a store whose only
record is a JSON object holding nothing but a fresh plain ISO `ts`. -/
theorem C1_cache_validity_scope_witness :
    (cache_valid_py 0 (fun _ => some (DiskFile.object none none none
          (some (TsField.iso 0)))) "k" = some true ↔
        ∃ u ti co t, (fun _ => some (DiskFile.object none none none
              (some (TsField.iso 0))) : PyStore) "k"
            = some (DiskFile.object u ti co (some (TsField.iso t)))
          ∧ (0 : Int) - t < ttlSecs)
      ∧ (cache_valid_py 0 (fun _ => some (DiskFile.object none none none
            (some (TsField.iso 0)))) "k" = none ↔
          (fun _ => some (DiskFile.object none none none
              (some (TsField.iso 0))) : PyStore) "k" = some DiskFile.nonObject
            ∨ (∃ u ti co, (fun _ => some (DiskFile.object none none none
                  (some (TsField.iso 0))) : PyStore) "k"
                = some (DiskFile.object u ti co (some TsField.nonString)))
            ∨ (∃ u ti co, (fun _ => some (DiskFile.object none none none
                  (some (TsField.iso 0))) : PyStore) "k"
                = some (DiskFile.object u ti co (some TsField.awareIso))))
      ∧ (∀ u1 t1 c1 u2 t2 c2 ts,
          cacheValidFile 0 (DiskFile.object u1 t1 c1 ts)
            = cacheValidFile 0 (DiskFile.object u2 t2 c2 ts))
      ∧ (∀ b, cache_valid_py 0 (fun _ => some (DiskFile.object none none none
            (some (TsField.iso 0)))) "k" = some b →
          b = cache_valid 0 (fun k => ((fun _ => some (DiskFile.object none
              none none (some (TsField.iso 0))) : PyStore) k).map
              DiskFile.toRaw) "k") :=
  C1_cache_validity_scope 0
    (fun _ => some (DiskFile.object none none none (some (TsField.iso 0)))) "k"

/-- An on-disk record that parses as JSON but holds only a `ts` field
(url, title and content missing), e.g. the file text `\x7b"ts": "..."\x7d`,
as the coarse model reads it. -/
def corruptRaw : RawRecord := ⟨true, none, none, none, some 0⟩

/-- A cache directory containing only such records. -/
def corruptStore : Store := fun _ => some corruptRaw

/-- C1 counterexample to the claim as stated, refuting both halves: (a) an
on-disk record that is well-formed JSON but is missing three of the four
Cached Document fields (url, title, content), carrying only a fresh `ts`, is
reported valid by `cache_valid` (in the coarse and in the exact model), is
served by `fetch` as a cache hit, and then crashes `fetch_nvidia_docs` on the
missing title (the `none` output) — so it is not treated as absent; and (b) a
file whose bytes are valid JSON but not an object, or whose `ts` is a
non-string, makes `cache_valid` raise an uncaught `TypeError` (the `none`
outcome of `cache_valid_py`) — so a parse error is surfaced to the caller. -/
theorem C1_counterexample :
    corruptStore "k" = some corruptRaw
      ∧ corruptRaw.url = none ∧ corruptRaw.title = none
      ∧ corruptRaw.content = none
      ∧ cache_valid 0 corruptStore "k" = true
      ∧ cache_valid_py 0 (fun _ => some (DiskFile.object none none none
          (some (TsField.iso 0)))) "k" = some true
      ∧ (fetch (fun s => s) (fun _ => Retrieval.failure "x") 0 corruptStore
          "u" false).1 = FetchResult.cached corruptRaw
      ∧ (fetch_nvidia_docs (fun s => s) (fun _ => Retrieval.failure "x") 0
          corruptStore "rdma" "" false).1 = none
      ∧ cache_valid_py 0 (fun _ => some DiskFile.nonObject) "k" = none
      ∧ cache_valid_py 0 (fun _ => some (DiskFile.object none none none
          (some TsField.nonString))) "k" = none := by decide

/-- C4: a stored, parseable record is reported valid if and only if
`now - fetched_at < 24 hours`; in particular a record whose age is at least
24 hours is reported invalid although its on-disk bytes are unchanged. -/
theorem C4_ttl_validity (now : Int) (store : Store) (key : String)
    (raw : RawRecord) (t : Int)
    (h1 : store key = some raw) (h2 : raw.wellFormedJson = true)
    (h3 : raw.ts = some t) :
    (cache_valid now store key = true ↔ now - t < ttlSecs)
      ∧ (ttlSecs ≤ now - t → cache_valid now store key = false) := by
  have hv : cache_valid now store key
      = (raw.wellFormedJson && decide (now - t < ttlSecs)) := by
    simp [cache_valid, h1, cacheValidRaw, h3]
  rw [hv, h2]
  constructor
  · simp
  · intro hle
    simp
    omega

/-- C4 witness: a record fetched at time 0 read at time 10 (valid) and the
same record read at time `ttlSecs` (invalid). -/
theorem C4_ttl_validity_witness :
    ((fun _ => some (RawRecord.mk true (some "u") (some "T") (some "C")
        (some 0)) : Store) "k"
      = some (RawRecord.mk true (some "u") (some "T") (some "C") (some 0)))
      ∧ ((cache_valid 10 (fun _ => some (RawRecord.mk true (some "u") (some "T")
            (some "C") (some 0))) "k" = true ↔ (10 : Int) - 0 < ttlSecs)
          ∧ (ttlSecs ≤ (10 : Int) - 0 → cache_valid 10 (fun _ =>
              some (RawRecord.mk true (some "u") (some "T") (some "C")
                (some 0))) "k" = false))
      ∧ cache_valid ttlSecs (fun _ => some (RawRecord.mk true (some "u")
          (some "T") (some "C") (some 0))) "k" = false :=
  ⟨rfl,
   C4_ttl_validity 10 (fun _ => some (RawRecord.mk true (some "u") (some "T")
     (some "C") (some 0))) "k" _ 0 rfl rfl rfl,
   (C4_ttl_validity ttlSecs (fun _ => some (RawRecord.mk true (some "u")
     (some "T") (some "C") (some 0))) "k" _ 0 rfl rfl rfl).2 (by decide)⟩

/-! ### Claims about `fetch` -/

/-- C7: with `refresh = true`, `fetch` never returns a cached record, always
performs the retrieval, and on success (page retrieved and a content region
found) overwrites the cache entry for the URL key and returns the freshly
built record tagged as not-from-cache. -/
theorem C7_force_refresh (keyFor : String → String) (w : World) (now : Int)
    (store : Store) (url : String) :
    (∀ raw, (fetch keyFor w now store url true).1 ≠ FetchResult.cached raw)
      ∧ (fetch keyFor w now store url true).2.2 = [url]
      ∧ (∀ t m, w url = Retrieval.page t (some m) →
          fetch keyFor w now store url true
            = (FetchResult.fresh (mkRecord url t m now),
               fun k => if k = keyFor url then some (mkRecord url t m now).toRaw
                 else store k,
               [url])) := by
  have hc : (!true && cache_valid now store (keyFor url)) = false := rfl
  refine ⟨?_, ?_, fun t m hw => fetch_fresh_eq keyFor w now store url true t m hc hw⟩
  · intro raw
    cases hw : w url with
    | failure e =>
      rw [fetch_fail keyFor w now store url true e hc hw]
      simp
    | page t main =>
      cases main with
      | none =>
        rw [fetch_nocontent keyFor w now store url true t hc hw]
        simp
      | some m =>
        rw [fetch_fresh_eq keyFor w now store url true t m hc hw]
        simp
  · cases hw : w url with
    | failure e => rw [fetch_fail keyFor w now store url true e hc hw]
    | page t main =>
      cases main with
      | none => rw [fetch_nocontent keyFor w now store url true t hc hw]
      | some m => rw [fetch_fresh_eq keyFor w now store url true t m hc hw]

/-- C7 witness: a URL with a valid cache entry, force-refreshed against a world
that returns a page; the cached record is bypassed and overwritten. -/
theorem C7_force_refresh_witness :
    ((fun _ => Retrieval.page (some "T2") (some "C2") : World) "u"
        = Retrieval.page (some "T2") (some "C2"))
      ∧ ((∀ raw, (fetch (fun s => s) (fun _ => Retrieval.page (some "T2")
            (some "C2")) 5 (fun _ => some (RawRecord.mk true (some "u")
            (some "T1") (some "C1") (some 0))) "u" true).1
          ≠ FetchResult.cached raw)
        ∧ (fetch (fun s => s) (fun _ => Retrieval.page (some "T2") (some "C2"))
            5 (fun _ => some (RawRecord.mk true (some "u") (some "T1")
            (some "C1") (some 0))) "u" true).2.2 = ["u"]
        ∧ (∀ t m, (fun _ => Retrieval.page (some "T2") (some "C2") : World) "u"
              = Retrieval.page t (some m) →
            fetch (fun s => s) (fun _ => Retrieval.page (some "T2") (some "C2"))
                5 (fun _ => some (RawRecord.mk true (some "u") (some "T1")
                (some "C1") (some 0))) "u" true
              = (FetchResult.fresh (mkRecord "u" t m 5),
                 fun k => if k = (fun s => s) "u"
                   then some (mkRecord "u" t m 5).toRaw
                   else (fun _ => some (RawRecord.mk true (some "u") (some "T1")
                     (some "C1") (some 0)) : Store) k,
                 ["u"]))) :=
  ⟨rfl,
   C7_force_refresh (fun s => s) (fun _ => Retrieval.page (some "T2") (some "C2"))
     5 (fun _ => some (RawRecord.mk true (some "u") (some "T1") (some "C1")
       (some 0))) "u"⟩

/-- C8: a successful fetch writes a full record; a second fetch of the same URL
within the TTL window (against any world, so without network access) returns a
cached record whose url, title, content and ts fields equal what was written. -/
theorem C8_round_trip (keyFor : String → String) (w w' : World)
    (now now' : Int) (store : Store) (url : String) (refresh : Bool)
    (r : CacheRecord)
    (h1 : (fetch keyFor w now store url refresh).1 = FetchResult.fresh r)
    (h2 : now' - now < ttlSecs) :
    (fetch keyFor w' now' ((fetch keyFor w now store url refresh).2.1) url
        false).1 = FetchResult.cached r.toRaw
      ∧ (fetch keyFor w' now' ((fetch keyFor w now store url refresh).2.1) url
          false).2.2 = []
      ∧ r.toRaw.url = some r.url ∧ r.toRaw.title = some r.title
      ∧ r.toRaw.content = some r.content ∧ r.toRaw.ts = some r.ts := by
  by_cases hc : (!refresh && cache_valid now store (keyFor url)) = true
  · exfalso
    cases hs : store (keyFor url) with
    | some raw =>
      rw [fetch_hit keyFor w now store url refresh raw hc hs] at h1
      simp at h1
    | none =>
      rw [fetch_hit_none keyFor w now store url refresh hc hs] at h1
      simp at h1
  · have hc' : (!refresh && cache_valid now store (keyFor url)) = false := by
      simpa using hc
    cases hw : w url with
    | failure e =>
      exfalso
      rw [fetch_fail keyFor w now store url refresh e hc' hw] at h1
      simp at h1
    | page t main =>
      cases main with
      | none =>
        exfalso
        rw [fetch_nocontent keyFor w now store url refresh t hc' hw] at h1
        simp at h1
      | some m =>
        have heq := fetch_fresh_eq keyFor w now store url refresh t m hc' hw
        rw [heq] at h1
        have hr : mkRecord url t m now = r := by simpa using h1
        rw [heq]
        dsimp only
        have hts : r.ts = now := by
          rw [← hr]
          rfl
        have hs2 : (fun k => if k = keyFor url
            then some (mkRecord url t m now).toRaw else store k) (keyFor url)
            = some r.toRaw := by
          show (if keyFor url = keyFor url
              then some (mkRecord url t m now).toRaw else store (keyFor url))
            = some r.toRaw
          rw [if_pos rfl, hr]
        have hcv : (!false && cache_valid now' (fun k => if k = keyFor url
            then some (mkRecord url t m now).toRaw else store k)
            (keyFor url)) = true := by
          rw [Bool.not_false, Bool.true_and,
            cache_valid_of_record now' _ _ r.toRaw hs2]
          show (true && decide (now' - r.ts < ttlSecs)) = true
          rw [Bool.true_and, hts]
          exact decide_eq_true h2
        rw [fetch_hit keyFor w' now' _ url false r.toRaw hcv hs2]
        exact ⟨rfl, rfl, rfl, rfl, rfl, rfl⟩

/-- C8 witness: write at time 0, read back at time 100 against a world whose
every retrieval fails; the cached record round-trips. -/
theorem C8_round_trip_witness :
    ((fetch (fun _ => "k") (fun _ => Retrieval.page (some "T") (some "C")) 0
        (fun _ => none) "u" false).1
      = FetchResult.fresh (CacheRecord.mk "u" "T" "C" 0))
      ∧ ((100 : Int) - 0 < ttlSecs)
      ∧ ((fetch (fun _ => "k") (fun _ => Retrieval.failure "net down") 100
            ((fetch (fun _ => "k") (fun _ => Retrieval.page (some "T")
              (some "C")) 0 (fun _ => none) "u" false).2.1) "u" false).1
          = FetchResult.cached (CacheRecord.mk "u" "T" "C" 0).toRaw
        ∧ (fetch (fun _ => "k") (fun _ => Retrieval.failure "net down") 100
            ((fetch (fun _ => "k") (fun _ => Retrieval.page (some "T")
              (some "C")) 0 (fun _ => none) "u" false).2.1) "u" false).2.2 = []
        ∧ (CacheRecord.mk "u" "T" "C" 0).toRaw.url
            = some (CacheRecord.mk "u" "T" "C" 0).url
        ∧ (CacheRecord.mk "u" "T" "C" 0).toRaw.title
            = some (CacheRecord.mk "u" "T" "C" 0).title
        ∧ (CacheRecord.mk "u" "T" "C" 0).toRaw.content
            = some (CacheRecord.mk "u" "T" "C" 0).content
        ∧ (CacheRecord.mk "u" "T" "C" 0).toRaw.ts
            = some (CacheRecord.mk "u" "T" "C" 0).ts) :=
  ⟨by decide, by decide,
   C8_round_trip (fun _ => "k") (fun _ => Retrieval.page (some "T") (some "C"))
     (fun _ => Retrieval.failure "net down") 0 100 (fun _ => none) "u" false
     (CacheRecord.mk "u" "T" "C" 0) (by decide) (by decide)⟩

/-- C9: whenever `fetch` returns a result-level error (retrieval failure or no
extractable content region), the cache is left untouched: the store after the
call is the store before it, so a failed refresh never destroys a previously
cached (even expired) record. -/
theorem C9_no_write_on_error (keyFor : String → String) (w : World) (now : Int)
    (store : Store) (url : String) (refresh : Bool) (msg : String)
    (h : (fetch keyFor w now store url refresh).1 = FetchResult.error msg) :
    (fetch keyFor w now store url refresh).2.1 = store := by
  by_cases hc : (!refresh && cache_valid now store (keyFor url)) = true
  · cases hs : store (keyFor url) with
    | some raw => rw [fetch_hit keyFor w now store url refresh raw hc hs]
    | none => rw [fetch_hit_none keyFor w now store url refresh hc hs]
  · have hc' : (!refresh && cache_valid now store (keyFor url)) = false := by
      simpa using hc
    cases hw : w url with
    | failure e => rw [fetch_fail keyFor w now store url refresh e hc' hw]
    | page t main =>
      cases main with
      | none => rw [fetch_nocontent keyFor w now store url refresh t hc' hw]
      | some m =>
        exfalso
        rw [fetch_fresh_eq keyFor w now store url refresh t m hc' hw] at h
        simp at h

/-- C9 witness: a forced refresh of a URL whose retrieval fails, over a store
holding an expired record for every key; the store is unchanged. -/
theorem C9_no_write_on_error_witness :
    ((fetch (fun s => s) (fun _ => Retrieval.failure "boom") 200000
        (fun _ => some (RawRecord.mk true (some "u") (some "T") (some "C")
          (some 0))) "u" true).1 = FetchResult.error "boom")
      ∧ (fetch (fun s => s) (fun _ => Retrieval.failure "boom") 200000
          (fun _ => some (RawRecord.mk true (some "u") (some "T") (some "C")
            (some 0))) "u" true).2.1
        = (fun _ => some (RawRecord.mk true (some "u") (some "T") (some "C")
            (some 0))) :=
  ⟨by decide,
   C9_no_write_on_error (fun s => s) (fun _ => Retrieval.failure "boom") 200000
     (fun _ => some (RawRecord.mk true (some "u") (some "T") (some "C")
       (some 0))) "u" true "boom" (by decide)⟩

/-! ### Claims about the operation facade and the search sweep -/

lemma fetch_log_sub (keyFor : String → String) (w : World) (now : Int)
    (store : Store) (url : String) (refresh : Bool) (u : String)
    (hu : u ∈ (fetch keyFor w now store url refresh).2.2) : u = url := by
  by_cases hc : (!refresh && cache_valid now store (keyFor url)) = true
  · cases hs : store (keyFor url) with
    | some raw =>
      rw [fetch_hit keyFor w now store url refresh raw hc hs] at hu
      simp at hu
    | none =>
      rw [fetch_hit_none keyFor w now store url refresh hc hs] at hu
      simp at hu
  · have hc' : (!refresh && cache_valid now store (keyFor url)) = false := by
      simpa using hc
    cases hw : w url with
    | failure e =>
      rw [fetch_fail keyFor w now store url refresh e hc' hw] at hu
      simpa using hu
    | page t main =>
      cases main with
      | none =>
        rw [fetch_nocontent keyFor w now store url refresh t hc' hw] at hu
        simpa using hu
      | some m =>
        rw [fetch_fresh_eq keyFor w now store url refresh t m hc' hw] at hu
        simpa using hu

lemma fetch_nvidia_docs_log (keyFor : String → String) (w : World) (now : Int)
    (store : Store) (topic page : String) (refresh : Bool) (src : DocSource)
    (hlk : lookupSrc (normalizeTopic topic) = some src) :
    (fetch_nvidia_docs keyFor w now store topic page refresh).2.2
      = (fetch keyFor w now store (src.base ++ page) refresh).2.2 := by
  unfold fetch_nvidia_docs
  rw [hlk]
  dsimp only
  split
  · rfl
  · split <;> rfl
  · rfl

/-- C5: `fetch_nvidia_docs` normalizes the requested topic (lowercase, spaces
and hyphens to underscore) before the registry lookup; on a miss it returns the
error string listing every registered topic identifier verbatim, leaves the
cache untouched and retrieves nothing; on a hit, any retrieval it performs is
of exactly `base_url ++ page`. -/
theorem C5_topic_resolution (keyFor : String → String) (w : World) (now : Int)
    (store : Store) (topic page : String) (refresh : Bool) :
    (lookupSrc (normalizeTopic topic) = none →
        fetch_nvidia_docs keyFor w now store topic page refresh
          = (some ("Unknown topic \x27" ++ normalizeTopic topic
              ++ "\x27. Available: " ++ availableStr), store, []))
      ∧ (∀ src, lookupSrc (normalizeTopic topic) = some src →
          ∀ u ∈ (fetch_nvidia_docs keyFor w now store topic page refresh).2.2,
            u = src.base ++ page)
      ∧ availableStr
          = "connectx7, doca, vma, rdma, mlnx_ofed, mlx5_kernel, dpdk_mlx5"
      ∧ normalizeTopic "ConnectX7" = "connectx7"
      ∧ normalizeTopic "mlnx-ofed" = "mlnx_ofed"
      ∧ normalizeTopic "MLX5 Kernel" = "mlx5_kernel" := by
  refine ⟨?_, ?_, by decide, by decide, by decide, by decide⟩
  · intro hlk
    unfold fetch_nvidia_docs
    rw [hlk]
  · intro src hlk u hu
    rw [fetch_nvidia_docs_log keyFor w now store topic page refresh src hlk] at hu
    exact fetch_log_sub keyFor w now store (src.base ++ page) refresh u hu

/-- C5 witness: the unknown topic "foo" hits the error branch with no retrieval
and no cache change. -/
theorem C5_topic_resolution_witness :
    lookupSrc (normalizeTopic "foo") = none
      ∧ fetch_nvidia_docs (fun s => s) (fun _ => Retrieval.failure "x") 0
          (fun _ => none) "foo" "" false
        = (some ("Unknown topic \x27" ++ normalizeTopic "foo"
            ++ "\x27. Available: " ++ availableStr), (fun _ => none), []) :=
  ⟨by decide,
   (C5_topic_resolution (fun s => s) (fun _ => Retrieval.failure "x") 0
     (fun _ => none) "foo" "" false).1 (by decide)⟩

lemma searchSweepAux_eq_items (keyFor : String → String) (w : World)
    (now : Int) (q : String) :
    ∀ (topics : List String) (st : List SearchHit × Store),
      searchSweepAux keyFor w now q st topics
        = (sweepItems topics).foldl (sweepStep keyFor w now q) st := by
  intro topics
  induction topics with
  | nil => intro st; rfl
  | cons t ts ih =>
    intro st
    cases hlk : lookupSrc t with
    | none =>
      simp only [searchSweepAux, sweepItems, hlk, List.nil_append]
      exact ih st
    | some src =>
      simp only [searchSweepAux, sweepItems, hlk, List.foldl_append,
        List.foldl_map]
      exact ih _

lemma sweepStep_skip (keyFor : String → String) (w : World) (now : Int)
    (q : String) (st : List SearchHit × Store) (nm pg u e : String)
    (hfail : w u = Retrieval.failure e)
    (hmiss : cache_valid now st.2 (keyFor u) = false) :
    sweepStep keyFor w now q st (nm, pg, u) = st := by
  have hcond : (!false && cache_valid now st.2 (keyFor u)) = false := by
    rw [Bool.not_false, Bool.true_and]
    exact hmiss
  have hfetch := fetch_fail keyFor w now st.2 u false e hcond hfail
  unfold sweepStep
  dsimp only
  rw [hfetch]

/-- C6: a URL whose retrieval fails yields a result-level error value from
`fetch` (never an exception: `fetch` is total) with the cache unchanged; inside
a search sweep such a page is skipped — the sweep over the items before it,
the failing page, and the items after it equals the sweep with the failing
page removed, so all remaining pages are still processed; and the search
operation is exactly this fold over the flattened topics-outer/pages-inner
iteration order. -/
theorem C6_error_containment (keyFor : String → String) (w : World) (now : Int)
    (q : String) (store : Store)
    (items1 items2 : List (String × String × String)) (nm pg u e : String)
    (hfail : w u = Retrieval.failure e)
    (hmiss : cache_valid now
        (List.foldl (sweepStep keyFor w now q) ([], store) items1).2
        (keyFor u) = false) :
    fetch keyFor w now
        (List.foldl (sweepStep keyFor w now q) ([], store) items1).2 u false
      = (FetchResult.error e,
         (List.foldl (sweepStep keyFor w now q) ([], store) items1).2, [u])
      ∧ List.foldl (sweepStep keyFor w now q) ([], store)
          (items1 ++ (nm, pg, u) :: items2)
        = List.foldl (sweepStep keyFor w now q) ([], store) (items1 ++ items2)
      ∧ ∀ topics, searchSweep keyFor w now q topics store
          = (sweepItems topics).foldl (sweepStep keyFor w now q) ([], store) := by
  have hcond : (!false && cache_valid now
      (List.foldl (sweepStep keyFor w now q) ([], store) items1).2
      (keyFor u)) = false := by
    rw [Bool.not_false, Bool.true_and]
    exact hmiss
  refine ⟨fetch_fail keyFor w now _ u false e hcond hfail, ?_,
    fun topics => searchSweepAux_eq_items keyFor w now q topics ([], store)⟩
  rw [List.foldl_append, List.foldl_append, List.foldl_cons,
    sweepStep_skip keyFor w now q _ nm pg u e hfail hmiss]

/-- C6 witness: a sweep item whose URL fails with "boom" over an empty cache;
the item is skipped and the item after it is still swept. -/
theorem C6_error_containment_witness :
    ((fun url => if url = "u" then Retrieval.failure "boom"
        else Retrieval.page (some "T") (some "hello") : World) "u"
      = Retrieval.failure "boom")
      ∧ (cache_valid 0
          (List.foldl (sweepStep (fun s => s) (fun url => if url = "u"
            then Retrieval.failure "boom"
            else Retrieval.page (some "T") (some "hello")) 0 "hello")
            ([], fun _ => none) []).2 ((fun s => s) "u") = false)
      ∧ (fetch (fun s => s) (fun url => if url = "u"
            then Retrieval.failure "boom"
            else Retrieval.page (some "T") (some "hello")) 0
          (List.foldl (sweepStep (fun s => s) (fun url => if url = "u"
            then Retrieval.failure "boom"
            else Retrieval.page (some "T") (some "hello")) 0 "hello")
            ([], fun _ => none) []).2 "u" false
        = (FetchResult.error "boom",
           (List.foldl (sweepStep (fun s => s) (fun url => if url = "u"
             then Retrieval.failure "boom"
             else Retrieval.page (some "T") (some "hello")) 0 "hello")
             ([], fun _ => none) []).2, ["u"])
        ∧ List.foldl (sweepStep (fun s => s) (fun url => if url = "u"
            then Retrieval.failure "boom"
            else Retrieval.page (some "T") (some "hello")) 0 "hello")
            ([], fun _ => none) ([] ++ ("S", "p", "u") :: [("S", "p2", "v")])
          = List.foldl (sweepStep (fun s => s) (fun url => if url = "u"
              then Retrieval.failure "boom"
              else Retrieval.page (some "T") (some "hello")) 0 "hello")
              ([], fun _ => none) ([] ++ [("S", "p2", "v")])
        ∧ ∀ topics, searchSweep (fun s => s) (fun url => if url = "u"
            then Retrieval.failure "boom"
            else Retrieval.page (some "T") (some "hello")) 0 "hello" topics
            (fun _ => none)
          = (sweepItems topics).foldl (sweepStep (fun s => s)
              (fun url => if url = "u" then Retrieval.failure "boom"
                else Retrieval.page (some "T") (some "hello")) 0 "hello")
              ([], fun _ => none)) :=
  ⟨by decide, by decide,
   C6_error_containment (fun s => s) (fun url => if url = "u"
       then Retrieval.failure "boom"
       else Retrieval.page (some "T") (some "hello")) 0 "hello" (fun _ => none)
     [] [("S", "p2", "v")] "S" "p" "u" "boom" (by decide) (by decide)⟩

lemma searchSweepAux_filter_registered (keyFor : String → String) (w : World)
    (now : Int) (q : String) :
    ∀ (topics : List String) (st : List SearchHit × Store),
      searchSweepAux keyFor w now q st topics
        = searchSweepAux keyFor w now q st (topics.filter isRegistered) := by
  intro topics
  induction topics with
  | nil => intro st; rfl
  | cons t ts ih =>
    intro st
    cases hreg : isRegistered t with
    | false =>
      have hlk : lookupSrc t = none := by
        unfold isRegistered at hreg
        simpa [Option.isSome_iff_exists] using hreg
      rw [show (t :: ts).filter isRegistered = ts.filter isRegistered from by
        simp [List.filter_cons, hreg]]
      simp only [searchSweepAux, hlk]
      exact ih st
    | true =>
      rw [show (t :: ts).filter isRegistered = t :: ts.filter isRegistered from by
        simp [List.filter_cons, hreg]]
      simp only [searchSweepAux]
      exact ih _

/-- C10: the search sweep looks topics up by exact registry key — removing the
unregistered entries of the topic list changes nothing, so a requested topic
differing from a registered identifier only in case or hyphenation (such as
"RDMA") is silently skipped and contributes no pages; `fetch_nvidia_docs`
by contrast normalizes "RDMA" to the registered key "rdma" before lookup. -/
theorem C10_search_exact_topics :
    (∀ (keyFor : String → String) (w : World) (now : Int) (q : String)
        (store : Store) (topics : List String),
        searchSweep keyFor w now q topics store
          = searchSweep keyFor w now q (topics.filter isRegistered) store)
      ∧ isRegistered "RDMA" = false
      ∧ (∀ (keyFor : String → String) (w : World) (now : Int) (q : String)
          (store : Store),
          searchSweep keyFor w now q ["RDMA"] store = ([], store))
      ∧ normalizeTopic "RDMA" = "rdma"
      ∧ isRegistered "rdma" = true := by
  have hlk : lookupSrc "RDMA" = none := by decide
  refine ⟨?_, by decide, ?_, by decide, by decide⟩
  · intro keyFor w now q store topics
    exact searchSweepAux_filter_registered keyFor w now q topics ([], store)
  · intro keyFor w now q store
    unfold searchSweep
    simp only [searchSweepAux, hlk]

lemma processDoc_mem (q nm pg url : String) (hits : List SearchHit)
    (t : Option String) (content : String) (h : SearchHit)
    (hmem : h ∈ processDoc q nm pg url hits t content) :
    h ∈ hits ∨ (containsSub q content = true
      ∧ h.matchParas = (paraMatches q content).take 2) := by
  unfold processDoc at hmem
  by_cases h1 : containsSub q content = true
  · rw [if_pos h1] at hmem
    dsimp only at hmem
    by_cases h2 : (paraMatches q content).isEmpty = true
    · rw [if_pos h2] at hmem
      exact Or.inl hmem
    · rw [if_neg h2] at hmem
      rcases List.mem_append.mp hmem with hm | hm
      · exact Or.inl hm
      · right
        have he : h = ⟨nm, t.getD pg, url, (paraMatches q content).take 2⟩ := by
          simpa using hm
        rw [he]
        exact ⟨h1, rfl⟩
  · rw [if_neg h1] at hmem
    exact Or.inl hmem

lemma sweepStep_mem (keyFor : String → String) (w : World) (now : Int)
    (q : String) (st : List SearchHit × Store)
    (item : String × String × String) (h : SearchHit)
    (hmem : h ∈ (sweepStep keyFor w now q st item).1) :
    h ∈ st.1 ∨ ∃ c, containsSub q c = true
      ∧ h.matchParas = (paraMatches q c).take 2 := by
  unfold sweepStep at hmem
  dsimp only at hmem
  cases hres : (fetch keyFor w now st.2 item.2.2 false).1 with
  | error e =>
    rw [hres] at hmem
    exact Or.inl hmem
  | cached raw =>
    rw [hres] at hmem
    rcases processDoc_mem q item.1 item.2.1 item.2.2 st.1 raw.title
        (raw.content.getD "") h hmem with hm | ⟨hc, he⟩
    · exact Or.inl hm
    · exact Or.inr ⟨raw.content.getD "", hc, he⟩
  | fresh d =>
    rw [hres] at hmem
    rcases processDoc_mem q item.1 item.2.1 item.2.2 st.1 (some d.title)
        d.content h hmem with hm | ⟨hc, he⟩
    · exact Or.inl hm
    · exact Or.inr ⟨d.content, hc, he⟩

lemma sweepFold_mem (keyFor : String → String) (w : World) (now : Int)
    (q : String) :
    ∀ (items : List (String × String × String)) (st : List SearchHit × Store)
      (h : SearchHit),
      h ∈ (items.foldl (sweepStep keyFor w now q) st).1 →
      h ∈ st.1 ∨ ∃ c, containsSub q c = true
        ∧ h.matchParas = (paraMatches q c).take 2 := by
  intro items
  induction items with
  | nil => intro st h hm; exact Or.inl hm
  | cons i is ih =>
    intro st h hm
    rw [List.foldl_cons] at hm
    rcases ih (sweepStep keyFor w now q st i) h hm with hm' | hp
    · exact sweepStep_mem keyFor w now q st i h hm'
    · exact Or.inr hp

lemma renderSearch_take (q : String) (hits : List SearchHit) :
    renderSearch q hits = renderSearch q (hits.take 10) := by
  unfold renderSearch
  have h1 : (hits.take 10).isEmpty = hits.isEmpty := by
    cases hits <;> rfl
  have h2 : (hits.take 10).take 10 = hits.take 10 := by
    rw [List.take_take, min_self]
  rw [h1, h2]

/-- C3: every search renders only the first 10 collected documents (a prefix of
the sweep's iteration order — topics outer loop, pages inner loop); every
collected document carries the first at-most-2 matching paragraphs of its
content in document order; and a retained paragraph longer than 500 characters
is displayed as its first 500 characters verbatim with the "..." marker
appended, shorter ones unchanged. -/
theorem C3_search_limits (keyFor : String → String) (w : World) (now : Int)
    (store : Store) (q : String) (topics : List String) :
    ((searchSweep keyFor w now q topics store).1.take 10).length ≤ 10
      ∧ ((searchSweep keyFor w now q topics store).1.take 10)
          <+: (searchSweep keyFor w now q topics store).1
      ∧ renderSearch q (searchSweep keyFor w now q topics store).1
          = renderSearch q ((searchSweep keyFor w now q topics store).1.take 10)
      ∧ (∀ h ∈ (searchSweep keyFor w now q topics store).1,
          h.matchParas.length ≤ 2
            ∧ ∃ c, containsSub q c = true
                ∧ h.matchParas = (paraMatches q c).take 2)
      ∧ (∀ m : String, 500 < m.data.length →
          truncPara m = String.mk (m.data.take 500) ++ "...")
      ∧ (∀ m : String, m.data.length ≤ 500 → truncPara m = m) := by
  refine ⟨List.length_take_le 10 _,
    List.take_prefix 10 _,
    renderSearch_take q _, ?_, ?_, ?_⟩
  · intro h hm
    rw [show searchSweep keyFor w now q topics store
        = (sweepItems topics).foldl (sweepStep keyFor w now q) ([], store) from
      searchSweepAux_eq_items keyFor w now q topics ([], store)] at hm
    rcases sweepFold_mem keyFor w now q (sweepItems topics) ([], store) h hm
        with hm' | ⟨c, hc, he⟩
    · exact absurd hm' (by simp)
    · refine ⟨?_, c, hc, he⟩
      rw [he]
      exact List.length_take_le 2 _
  · intro m hm
    unfold truncPara
    rw [if_pos hm]
  · intro m hm
    unfold truncPara
    rw [if_neg (not_lt.mpr hm)]

/-- C3 witness: a single-page topic whose content has three matching
paragraphs; the theorem instantiated there. -/
theorem C3_search_limits_witness :
    ((searchSweep (fun s => s) (fun _ => Retrieval.page (some "T")
          (some "hi\n\nhi again\n\nhi three")) 0 "hi" ["dpdk_mlx5"]
          (fun _ => none)).1.take 10).length ≤ 10
      ∧ ((searchSweep (fun s => s) (fun _ => Retrieval.page (some "T")
            (some "hi\n\nhi again\n\nhi three")) 0 "hi" ["dpdk_mlx5"]
            (fun _ => none)).1.take 10)
          <+: (searchSweep (fun s => s) (fun _ => Retrieval.page (some "T")
            (some "hi\n\nhi again\n\nhi three")) 0 "hi" ["dpdk_mlx5"]
            (fun _ => none)).1
      ∧ renderSearch "hi" (searchSweep (fun s => s) (fun _ =>
            Retrieval.page (some "T") (some "hi\n\nhi again\n\nhi three")) 0
            "hi" ["dpdk_mlx5"] (fun _ => none)).1
          = renderSearch "hi" ((searchSweep (fun s => s) (fun _ =>
              Retrieval.page (some "T") (some "hi\n\nhi again\n\nhi three")) 0
              "hi" ["dpdk_mlx5"] (fun _ => none)).1.take 10)
      ∧ (∀ h ∈ (searchSweep (fun s => s) (fun _ => Retrieval.page (some "T")
            (some "hi\n\nhi again\n\nhi three")) 0 "hi" ["dpdk_mlx5"]
            (fun _ => none)).1,
          h.matchParas.length ≤ 2
            ∧ ∃ c, containsSub "hi" c = true
                ∧ h.matchParas = (paraMatches "hi" c).take 2)
      ∧ (∀ m : String, 500 < m.data.length →
          truncPara m = String.mk (m.data.take 500) ++ "...")
      ∧ (∀ m : String, m.data.length ≤ 500 → truncPara m = m) :=
  C3_search_limits (fun s => s)
    (fun _ => Retrieval.page (some "T") (some "hi\n\nhi again\n\nhi three")) 0
    (fun _ => none) "hi" ["dpdk_mlx5"]

end CX7
